import Mathlib

/-!
Shallow embedding of the bank-payment-service repository core: the payment
settlement saga, the refund processor with its atomic conditional insert, and
the error-classification taxonomy. Definitions are translated from the Rust
source (`src/bank/*.rs`, `src/bank_web/*.rs`, `src/errors.rs`); database rows
become lists, SQL statements become pure functions on an explicit store state,
and the asynchronous account service becomes an explicit pair of oracle
results for `place_hold` and `withdraw_funds`.
-/

namespace BankService

/-- Payment status, from `src/bank/payments.rs` (`enum Status`). -/
inductive Status where
  | Processing
  | Approved
  | Declined
  | Failed
deriving DecidableEq, Repr

/-- A payment row, from `struct Payment` in `src/bank/payments.rs`.
Ids are modelled as naturals drawn from a fresh supply (uuids in the source);
the DB-managed timestamps are omitted: no verified operation reads them.
Amounts are `i32` in the source; they are modelled as `Int` (the verified
operations only compare and add amounts, and SQL `SUM` is unbounded). -/
structure Payment where
  id : Nat
  amount : Int
  card_number : String
  status : Status
deriving DecidableEq, Repr

/-- A refund row, from `struct Refund` in `src/bank/refunds.rs`
(timestamps omitted as for `Payment`). -/
structure Refund where
  id : Nat
  payment_id : Nat
  amount : Int
deriving DecidableEq, Repr

/-- The persistent store: the `payments` and `refunds` tables, plus the
fresh-id supply `nextId`. The counter models both the DB-generated row ids
and `Uuid::new_v4()`: all ids are drawn from one supply, which models the
collision-freedom of uuid generation with a strictly increasing counter. -/
structure Store where
  payments : List Payment
  refunds : List Refund
  nextId : Nat
deriving DecidableEq, Repr

/-- The refund rows of a given payment: SQL `FROM refunds WHERE payment_id = $1`. -/
def refundsFor (s : Store) (pid : Nat) : List Refund :=
  s.refunds.filter (fun r => r.payment_id == pid)

/-- SQL `SUM(amount)` over the refund rows of a payment. -/
def refundSum (s : Store) (pid : Nat) : Int :=
  ((refundsFor s pid).map (fun r => r.amount)).sum

/-- Row lookup by primary key: `SELECT ... FROM payments WHERE id = $1`
(`get` in `src/bank/payments.rs`); `fetch_one` errors when no row matches,
modelled by `none`. -/
def paymentsGet (s : Store) (pid : Nat) : Option Payment :=
  s.payments.find? (fun p => p.id == pid)

/-- The guard of the conditional insert in `checked_insert`
(`src/bank/refunds.rs`, lines 57-77): the first disjunct is the
`EXISTS (SELECT ... FROM refunds t1 JOIN payments t2 ... HAVING
t2.amount - SUM(t1.amount) >= $2)` branch (some refund row for the payment
exists, and the joined payment leaves enough headroom), the second is the
`NOT EXISTS refunds AND EXISTS payments WHERE id = $1 AND amount >= $2`
branch. Note that no condition on the payment `status` appears. -/
def checkedInsertOk (s : Store) (pid : Nat) (amt : Int) : Bool :=
  (s.payments.any fun p =>
    p.id == pid && !(refundsFor s pid).isEmpty &&
      decide (p.amount - refundSum s pid ≥ amt))
  || ((refundsFor s pid).isEmpty &&
      (s.payments.any fun p => p.id == pid && decide (p.amount ≥ amt)))

/-- The atomic conditional insert `checked_insert` of `src/bank/refunds.rs`:
one SQL statement that inserts `(payment_id, amount)` exactly when the guard
holds, returning the new row id (`RETURNING id`, `fetch_optional` gives
`None` when the guard rejected the insert). Executed atomically by the
store, hence a single step here. -/
def checked_insert (s : Store) (pid : Nat) (amt : Int) : Option Nat × Store :=
  if checkedInsertOk s pid amt then
    (some s.nextId,
      { s with refunds := s.refunds ++ [⟨s.nextId, pid, amt⟩],
               nextId := s.nextId + 1 })
  else
    (none, s)

/-- Payment-id uniqueness of the table: no two rows share a primary key
(the DB primary-key constraint). -/
def UniqueIds (s : Store) : Prop :=
  (s.payments.map (fun p => p.id)).Nodup

/-- The refund-sum invariant of the spec: for every payment row, the sum of
its refunds never exceeds its amount. -/
def RefundInvariant (s : Store) : Prop :=
  ∀ p ∈ s.payments, refundSum s p.id ≤ p.amount

/-- Running a sequence of refund requests, each as one atomic
`checked_insert` step. -/
def runRefunds (s : Store) (reqs : List (Nat × Int)) : Store :=
  reqs.foldl (fun st req => (checked_insert st req.1 req.2).2) s

/-- Response data of a created refund, from `ResponseData` in
`src/bank_web/refunds.rs`. -/
structure RefundResponseData where
  id : Nat
  amount : Int
  payment_id : Nat
deriving DecidableEq, Repr

/-- The refund-creation handler `post` of `src/bank_web/refunds.rs`:
read the payment (`.ok()` turns a store error into `None`); a missing
payment or a status other than `Approved` is a 404; then the single atomic
`checked_insert`; `None` from the guard is a 422, a new id is a 201 carrying
`(id, amount, payment_id)`. The handler's remaining branch (a store error
from `checked_insert`) cannot occur in this pure model of the store.
Message literals from the source are reproduced with apostrophes expanded
(`doesn't` as `does not`). -/
def refundsPost (s : Store) (payment_id : Nat) (amount : Int) :
    Except (Nat × String) (Nat × RefundResponseData) × Store :=
  match paymentsGet s payment_id with
  | none => (.error (404, "payment does not exist"), s)
  | some p =>
    if p.status ≠ Status.Approved then
      (.error (404, "has a status other than approved"), s)
    else
      match checked_insert s payment_id amount with
      | (none, s1) => (.error (422, "excessive refund amount requested"), s1)
      | (some id, s1) => (.ok (201, ⟨id, amount, payment_id⟩), s1)

/-- Constant from `src/bank/payment_instruments.rs`. -/
def CARD_NUMBER_LENGTH : Nat := 15

/-- Constant from `src/bank/payment_instruments.rs`; named
`ACCOUNT_PREFIX_LENGTH` there. -/
def ACCOUNT_ID_LENGTH : Nat := 2

/-- Card conversion errors, from `enum CardError` in
`src/bank/payment_instruments.rs` (the `ParseIntError` payload is dropped:
nothing reads it). -/
inductive CardError where
  | InvalidLength
  | ParseError
deriving DecidableEq, Repr

/-- UTF-8 size of one character, modelling Rust's byte-based string length. -/
def charBytes (c : Char) : Nat :=
  if c.toNat < 0x80 then 1
  else if c.toNat < 0x800 then 2
  else if c.toNat < 0x10000 then 3
  else 4

/-- Rust `str::len()`: the UTF-8 byte length of the string. -/
def rustLen (s : String) : Nat :=
  (s.data.map charBytes).sum

/-- An ASCII decimal digit, the only digits `u64::from_str` accepts. -/
def isDigitChar (c : Char) : Bool :=
  decide (48 ≤ c.toNat ∧ c.toNat ≤ 57)

/-- The digit loop of Rust's unsigned `from_str_radix`: a nonempty run of
ASCII decimal digits accumulated in base 10 with checked arithmetic —
equivalently, rejected when the final value overflows `u64`. -/
def parseDigits (digits : List Char) : Option Nat :=
  if digits.isEmpty then none
  else if digits.all isDigitChar then
    if digits.foldl (fun acc d => 10 * acc + (d.toNat - 48)) 0 < 2 ^ 64 then
      some (digits.foldl (fun acc d => 10 * acc + (d.toNat - 48)) 0)
    else none
  else none

/-- Rust `u64::from_str` (`card_number.parse::<u64>()`): an optional leading
`+` sign followed by the digit loop; a leading `-` is not accepted for an
unsigned target (it is not a digit), and the empty string fails. -/
def parseU64 (s : String) : Option Nat :=
  match s.data with
  | [] => none
  | c :: rest => parseDigits (if c = '+' then rest else c :: rest)

/-- A virtual card, from `struct Card(pub String)` in
`src/bank/payment_instruments.rs`; the single tuple field is named
`card_number` after the accessor `Card::card_number`. -/
structure Card where
  card_number : String
deriving DecidableEq, Repr

/-- The `TryFrom<String> for Card` conversion
(`src/bank/payment_instruments.rs`, lines 28-39): reject any string whose
byte length is not `CARD_NUMBER_LENGTH`, then require it to parse as `u64`. -/
def Card.tryFrom (card_number : String) : Except CardError Card :=
  if rustLen card_number ≠ CARD_NUMBER_LENGTH then .error .InvalidLength
  else
    match parseU64 card_number with
    | none => .error .ParseError
    | some _ => .ok ⟨card_number⟩

/-- The account number of a card: `split_at(ACCOUNT_PREFIX_LENGTH)` keeps the
first two bytes; every validated card is ASCII, so bytes and characters
coincide and the account number is the first two characters. -/
def Card.account_number (c : Card) : String :=
  String.mk (c.card_number.data.take ACCOUNT_ID_LENGTH)

/-- Error classification record, from `struct PaymentError` in
`src/errors.rs` (`code : i32` modelled as `Int`). -/
structure PaymentError where
  code : Int
  message : String
deriving DecidableEq, Repr

/-- The classification `PaymentError::from` of `src/errors.rs`, lines 58-69
(`from` is a Lean keyword, hence `fromStr`): a fixed total mapping from the
account-service error string to a code and message, every unknown string
mapping to 500. -/
def PaymentError.fromStr (messages : String) : PaymentError :=
  if messages = "invalid_account_number" then ⟨403, "Forbidden"⟩
  else if messages = "invalid_amount" then ⟨400, "Bad Request"⟩
  else if messages = "insufficient_funds" then ⟨402, "Payment Required"⟩
  else ⟨500, "Internal Error"⟩

/-- The terminal payment status of a classified error
(`PaymentError::get_payment_status`): codes 402 and 403 are `Declined`,
everything else is `Failed`. -/
def PaymentError.get_payment_status (e : PaymentError) : Status :=
  if e.code = 402 ∨ e.code = 403 then Status.Declined else Status.Failed

/-- The HTTP status of a classified error
(`PaymentError::get_http_status_code`): `self.code as u16` is two's
complement truncation, and `StatusCode::from_u16` accepts 100..=999,
falling back to `NOT_FOUND` (404). -/
def PaymentError.get_http_status_code (e : PaymentError) : Nat :=
  let u := (e.code % 65536).toNat
  if 100 ≤ u ∧ u ≤ 999 then u else 404

/-- An opaque hold reference, from `struct HoldRef` in
`src/bank/accounts.rs`. -/
structure HoldRef where
  id : Nat
deriving DecidableEq, Repr

/-- Observable events of one saga execution, in order: the reservation
insert, the account-service calls (`place_hold`, `withdraw_funds`,
`release_hold`) each recorded with the call's success flag, and the payment
status updates. -/
inductive Event where
  | insertAttempt (ok : Bool)
  | placeHold (account : String) (amount : Int) (ok : Bool)
  | updateStatus (pid : Nat) (st : Status)
  | withdrawFunds (ok : Bool)
  | releaseHold (ok : Bool)
deriving DecidableEq, Repr

/-- The reservation insert `insert` of `src/bank/payments.rs`: a plain
`INSERT ... RETURNING id`. Modelled from the spec: its failure case is the
uniqueness constraint on the `card_number` column, which lives in the
database migrations (not under `src/`); spec section 6 states "a uniqueness
constraint on Payment's card number column", so the insert fails exactly
when some row already carries this card number. -/
def paymentsInsert (s : Store) (amount : Int) (card_number : String)
    (status : Status) : Option (Nat × Store) :=
  if s.payments.any (fun p => p.card_number == card_number) then none
  else
    some (s.nextId,
      { s with payments := s.payments ++ [⟨s.nextId, amount, card_number, status⟩],
               nextId := s.nextId + 1 })

/-- The status update `update` of `src/bank/payments.rs`:
`UPDATE payments SET status = $2 WHERE id = $1`. -/
def paymentsUpdate (s : Store) (pid : Nat) (status : Status) : Store :=
  { s with payments :=
      s.payments.map (fun p => if p.id == pid then { p with status := status } else p) }

/-- Response data of a payment request, from `ResponseData` in
`src/bank_web/payments.rs`. -/
structure PaymentResponseData where
  id : Nat
  amount : Int
  card_number : String
  status : Status
deriving DecidableEq, Repr

/-- The outcome of one saga execution: the handler result (error responses
carry `(HTTP code, error message)`, successes `(HTTP code, body)` — declined
and failed payments are returned through the `Ok` arm in the source), the
final store, and the event trace. -/
structure SagaOut where
  result : Except (Nat × String) (Nat × PaymentResponseData)
  store : Store
  trace : List Event
deriving Repr

/-- The payment-creation handler `post` of `src/bank_web/payments.rs`
(lines 87-164). The account service is given by two oracle results: what
`place_hold` would return and what `withdraw_funds` would return if called;
the trace records which calls actually happen. Pre-validation: zero amount
is a 204, negative a 400, an invalid card a 422, all before any store write.
Then the reservation insert (a failure is the card-reuse 422), `place_hold`,
the `check_and_reverse_payment_status` macro on its result (update the row
to the classified status and reply with a fresh id), the optimistic
`Approved` update, `withdraw_funds`, the same macro again, and the 201
response carrying the row id. -/
def paymentsPost (s : Store) (amount : Int) (card_number : String)
    (holdRes : Except String HoldRef) (withdrawRes : Except String Unit) :
    SagaOut :=
  if amount = 0 then ⟨.error (204, "Amount should not be 0"), s, []⟩
  else if amount < 0 then ⟨.error (400, "Amount should not be negative"), s, []⟩
  else
    match Card.tryFrom card_number with
    | .error _ => ⟨.error (422, "Bad Card Number format"), s, []⟩
    | .ok card =>
      match paymentsInsert s amount card_number .Processing with
      | none => ⟨.error (422, "card_number already used"), s, [.insertAttempt false]⟩
      | some (payment_id, s1) =>
        match holdRes with
        | .error e =>
          let perr := PaymentError.fromStr e
          let s2 := paymentsUpdate s1 payment_id perr.get_payment_status
          ⟨.ok (perr.get_http_status_code,
              ⟨s2.nextId, amount, card_number, perr.get_payment_status⟩),
            { s2 with nextId := s2.nextId + 1 },
            [.insertAttempt true, .placeHold card.account_number amount false,
             .updateStatus payment_id perr.get_payment_status]⟩
        | .ok _hold =>
          let s2 := paymentsUpdate s1 payment_id .Approved
          match withdrawRes with
          | .error e =>
            let perr := PaymentError.fromStr e
            let s3 := paymentsUpdate s2 payment_id perr.get_payment_status
            ⟨.ok (perr.get_http_status_code,
                ⟨s3.nextId, amount, card_number, perr.get_payment_status⟩),
              { s3 with nextId := s3.nextId + 1 },
              [.insertAttempt true, .placeHold card.account_number amount true,
               .updateStatus payment_id .Approved, .withdrawFunds false,
               .updateStatus payment_id perr.get_payment_status]⟩
          | .ok _ =>
            ⟨.ok (201, ⟨payment_id, amount, card_number, .Approved⟩), s2,
              [.insertAttempt true, .placeHold card.account_number amount true,
               .updateStatus payment_id .Approved, .withdrawFunds true]⟩

/-- The number of successful hold resolutions in a trace: successful
`withdraw_funds` calls plus successful `release_hold` calls — the
account-service contract requires exactly one per successful hold. -/
def successfulResolutions (t : List Event) : Nat :=
  t.countP fun e =>
    match e with
    | .withdrawFunds true => true
    | .releaseHold true => true
    | _ => false

/-- Store wellformedness for the fresh-id supply: every persisted payment id
was drawn from the supply, so it is below the next fresh id. -/
def StoreWF (s : Store) : Prop :=
  ∀ p ∈ s.payments, p.id < s.nextId

/-- An empty store. -/
def emptyStore : Store := ⟨[], [], 0⟩

/-- A store holding one approved payment of amount 1205 and no refunds (the
scenario of the `should_handle_concurrent_refunds` test). -/
def approved1205 : Store :=
  ⟨[⟨0, 1205, "123456789012345", Status.Approved⟩], [], 1⟩

/-- A store holding one payment still in `Processing` status and no refunds. -/
def processing5 : Store :=
  ⟨[⟨0, 5, "987654321098765", Status.Processing⟩], [], 1⟩

/-- A store holding one approved payment of amount 5 and no refunds. -/
def approved5 : Store :=
  ⟨[⟨0, 5, "987654321098765", Status.Approved⟩], [], 1⟩

/-- One saga execution in which the hold succeeds and `withdraw_funds` then
fails with `service_unavailable`. -/
def sagaWithdrawFail : SagaOut :=
  paymentsPost emptyStore 5 "123456789012345" (.ok ⟨0⟩) (.error "service_unavailable")

/-- One saga execution in which `place_hold` fails with
`insufficient_funds`. -/
def sagaHoldFail : SagaOut :=
  paymentsPost emptyStore 5 "123456789012345" (.error "insufficient_funds") (.ok ())

/-- One saga execution in which `place_hold` fails with `invalid_amount`. -/
def sagaInvalidAmount : SagaOut :=
  paymentsPost emptyStore 5 "123456789012345" (.error "invalid_amount") (.ok ())

/-- One fully successful saga execution whose card number is a plus sign
followed by 14 ones — not 15 digits, yet accepted by the card conversion. -/
def sagaPlusCard : SagaOut :=
  paymentsPost emptyStore 5 "+11111111111111" (.ok ⟨0⟩) (.ok ())

/-- Appending one refund row adds its amount to the refund sum of its
payment and leaves every other payment's sum unchanged. -/
theorem refundSum_append (s : Store) (pp : List Payment) (n : Nat)
    (r : Refund) (q : Nat) :
    refundSum ⟨pp, s.refunds ++ [r], n⟩ q
      = refundSum s q + (if r.payment_id = q then r.amount else 0) := by
  unfold refundSum refundsFor
  simp only [List.filter_append, List.map_append, List.sum_append]
  by_cases h : r.payment_id = q
  · simp [h]
  · simp [h]

/-- Under primary-key uniqueness, a payment row with the sought id is the
row that `find?` returns. -/
theorem paymentsGet_eq_of_mem (s : Store) (pid : Nat) (p : Payment)
    (hU : UniqueIds s) (hp : p ∈ s.payments) (hid : p.id = pid) :
    paymentsGet s pid = some p := by
  have h1 : (s.payments.find? (fun q => q.id == pid)).isSome := by
    exact List.find?_isSome.mpr ⟨p, hp, by simp [hid]⟩
  obtain ⟨q, hq⟩ := Option.isSome_iff_exists.mp h1
  have hqm : q ∈ s.payments := List.mem_of_find?_eq_some hq
  have hqid : q.id = pid := by simpa using List.find?_some hq
  have hqp : q = p := List.inj_on_of_nodup_map hU hqm hp (by rw [hqid, hid])
  rw [paymentsGet, hq, hqp]

/-- A found payment row is a member with the sought id. -/
theorem paymentsGet_mem (s : Store) (pid : Nat) (p : Payment)
    (h : paymentsGet s pid = some p) : p ∈ s.payments ∧ p.id = pid := by
  refine ⟨List.mem_of_find?_eq_some h, ?_⟩
  simpa using List.find?_some h

/-- When a payment has no refund rows, its refund sum is zero. -/
theorem refundSum_of_empty (s : Store) (pid : Nat)
    (h : refundsFor s pid = []) : refundSum s pid = 0 := by
  unfold refundSum
  rw [h]
  simp

/-- The guard of the conditional insert, under primary-key uniqueness, holds
exactly when the payment row exists and the accumulated refunds plus the
requested amount fit within the payment amount. -/
theorem checkedInsertOk_iff (s : Store) (pid : Nat) (amt : Int)
    (hU : UniqueIds s) :
    checkedInsertOk s pid amt = true ↔
      ∃ p, paymentsGet s pid = some p ∧ refundSum s pid + amt ≤ p.amount := by
  unfold checkedInsertOk
  simp only [Bool.or_eq_true, List.any_eq_true, Bool.and_eq_true, beq_iff_eq,
    decide_eq_true_eq, Bool.not_eq_true', List.isEmpty_eq_false_iff_exists_mem,
    List.isEmpty_iff]
  constructor
  · rintro (⟨p, hp, ⟨hid, -⟩, hle⟩ | ⟨hemp, p, hp, hid, hle⟩)
    · exact ⟨p, paymentsGet_eq_of_mem s pid p hU hp hid, by omega⟩
    · refine ⟨p, paymentsGet_eq_of_mem s pid p hU hp hid, ?_⟩
      rw [refundSum_of_empty s pid hemp]
      omega
  · rintro ⟨p, hget, hle⟩
    obtain ⟨hp, hid⟩ := paymentsGet_mem s pid p hget
    by_cases hemp : refundsFor s pid = []
    · right
      refine ⟨hemp, p, hp, hid, ?_⟩
      rw [refundSum_of_empty s pid hemp] at hle
      omega
    · left
      refine ⟨p, hp, ⟨hid, ?_⟩, by omega⟩
      exact ⟨(refundsFor s pid).head (by exact hemp), by
        exact List.head_mem hemp⟩

/-- Equation for the conditional insert when the guard holds. -/
theorem checked_insert_eq_of_ok (s : Store) (pid : Nat) (amt : Int)
    (h : checkedInsertOk s pid amt = true) :
    checked_insert s pid amt
      = (some s.nextId,
         { s with refunds := s.refunds ++ [⟨s.nextId, pid, amt⟩],
                  nextId := s.nextId + 1 }) := by
  unfold checked_insert
  rw [if_pos h]

/-- Equation for the conditional insert when the guard rejects. -/
theorem checked_insert_eq_of_notok (s : Store) (pid : Nat) (amt : Int)
    (h : ¬ checkedInsertOk s pid amt = true) :
    checked_insert s pid amt = (none, s) := by
  unfold checked_insert
  rw [if_neg h]

/-- The conditional insert never touches the payments table. -/
theorem checked_insert_payments (s : Store) (pid : Nat) (amt : Int) :
    (checked_insert s pid amt).2.payments = s.payments := by
  unfold checked_insert
  by_cases h : checkedInsertOk s pid amt = true <;> simp [h]

/-- The conditional insert preserves primary-key uniqueness. -/
theorem checked_insert_uniqueIds (s : Store) (pid : Nat) (amt : Int)
    (hU : UniqueIds s) : UniqueIds (checked_insert s pid amt).2 := by
  unfold UniqueIds
  rw [checked_insert_payments]
  exact hU

/-- One atomic conditional insert preserves the refund-sum invariant. -/
theorem checked_insert_invariant (s : Store) (pid : Nat) (amt : Int)
    (hU : UniqueIds s) (hI : RefundInvariant s) :
    RefundInvariant (checked_insert s pid amt).2 := by
  intro q hq
  rw [checked_insert_payments] at hq
  by_cases hc : checkedInsertOk s pid amt = true
  · obtain ⟨p, hget, hle⟩ := (checkedInsertOk_iff s pid amt hU).mp hc
    unfold checked_insert
    rw [if_pos hc]
    rw [refundSum_append]
    by_cases hpq : pid = q.id
    · obtain ⟨hp, hpid⟩ := paymentsGet_mem s pid p hget
      have hqp : q = p := List.inj_on_of_nodup_map hU hq hp (by rw [hpid, hpq])
      rw [if_pos hpq, ← hpq, hqp]
      exact hle
    · rw [if_neg hpq, add_zero]
      exact hI q hq
  · unfold checked_insert
    rw [if_neg hc]
    exact hI q hq

/-- Every sequence of atomic refund inserts preserves uniqueness and the
refund-sum invariant. -/
theorem runRefunds_invariant (reqs : List (Nat × Int)) (s : Store)
    (hU : UniqueIds s) (hI : RefundInvariant s) :
    UniqueIds (runRefunds s reqs) ∧ RefundInvariant (runRefunds s reqs) := by
  induction reqs generalizing s with
  | nil => exact ⟨hU, hI⟩
  | cons r t ih =>
    have := ih ((checked_insert s r.1 r.2).2)
      (checked_insert_uniqueIds s r.1 r.2 hU)
      (checked_insert_invariant s r.1 r.2 hU hI)
    simpa [runRefunds, List.foldl_cons] using this

/-- C1: Refund-sum safety. For every payment P, under any sequence of refund
requests each executed as the single atomic store-layer conditional insert,
the sum of inserted refund amounts never exceeds P.amount; and from a state
where P has no refunds, two refund requests of amount P.amount resolve to
exactly one successful insert (the first) and one rejection (the second),
never both succeeding and never both failing. -/
theorem refund_sum_safety (s : Store) (hU : UniqueIds s) (hI : RefundInvariant s) :
    (∀ reqs : List (Nat × Int), RefundInvariant (runRefunds s reqs)) ∧
    (∀ pid p, paymentsGet s pid = some p → refundsFor s pid = [] → 0 < p.amount →
      (checked_insert s pid p.amount).1 = some s.nextId ∧
      (checked_insert (checked_insert s pid p.amount).2 pid p.amount).1 = none) := by
  constructor
  · intro reqs
    exact (runRefunds_invariant reqs s hU hI).2
  · intro pid p hget hemp hpos
    have hsum0 : refundSum s pid = 0 := refundSum_of_empty s pid hemp
    have hok : checkedInsertOk s pid p.amount = true := by
      refine (checkedInsertOk_iff s pid p.amount hU).mpr ⟨p, hget, ?_⟩
      omega
    have hs1 : (checked_insert s pid p.amount).2
        = { s with refunds := s.refunds ++ [⟨s.nextId, pid, p.amount⟩],
                   nextId := s.nextId + 1 } := by
      rw [checked_insert_eq_of_ok s pid p.amount hok]
    refine ⟨by rw [checked_insert_eq_of_ok s pid p.amount hok], ?_⟩
    have hU1 : UniqueIds (checked_insert s pid p.amount).2 :=
      checked_insert_uniqueIds s pid p.amount hU
    have hnot : ¬ checkedInsertOk (checked_insert s pid p.amount).2 pid p.amount = true := by
      intro hok1
      obtain ⟨p1, hget1, hle1⟩ := (checkedInsertOk_iff _ pid p.amount hU1).mp hok1
      have hgets : paymentsGet (checked_insert s pid p.amount).2 pid = paymentsGet s pid := by
        unfold paymentsGet
        rw [checked_insert_payments]
      rw [hgets, hget] at hget1
      have hp1 : p1 = p := by
        exact (Option.some.injEq _ _ ▸ hget1).symm ▸ rfl
      have hsum1 : refundSum (checked_insert s pid p.amount).2 pid = p.amount := by
        rw [hs1, refundSum_append, hsum0]
        simp
      rw [hsum1, hp1] at hle1
      omega
    rw [checked_insert_eq_of_notok _ pid p.amount hnot]

/-- Witness for the refund-sum safety theorem: the 1205 scenario of the
concurrent-refund test, evaluated concretely. -/
theorem refund_sum_safety_witness :
    (checked_insert approved1205 0 1205).1 = some approved1205.nextId ∧
    (checked_insert (checked_insert approved1205 0 1205).2 0 1205).1 = none :=
  (refund_sum_safety approved1205 (by unfold UniqueIds; decide)
      (by unfold RefundInvariant; decide)).2 0
    ⟨0, 1205, "123456789012345", Status.Approved⟩ (by decide) (by decide) (by decide)

/-- Equation for the refund handler when the payment row is missing. -/
theorem refundsPost_eq_of_missing (s : Store) (pid : Nat) (amt : Int)
    (h : paymentsGet s pid = none) :
    refundsPost s pid amt = (.error (404, "payment does not exist"), s) := by
  simp only [refundsPost, h]

/-- Equation for the refund handler when the payment is not approved. -/
theorem refundsPost_eq_of_notapproved (s : Store) (pid : Nat) (amt : Int)
    (p : Payment) (h : paymentsGet s pid = some p)
    (hst : p.status ≠ Status.Approved) :
    refundsPost s pid amt = (.error (404, "has a status other than approved"), s) := by
  simp only [refundsPost, h]
  rw [if_pos hst]

/-- Equation for the refund handler on the accepting path: approved payment
and enough headroom give a 201 carrying the fresh row id, and the row is
appended. -/
theorem refundsPost_eq_created (s : Store) (pid : Nat) (amt : Int)
    (p : Payment) (hU : UniqueIds s) (h : paymentsGet s pid = some p)
    (hst : p.status = Status.Approved) (hle : refundSum s pid + amt ≤ p.amount) :
    refundsPost s pid amt =
      (.ok (201, ⟨s.nextId, amt, pid⟩),
       { s with refunds := s.refunds ++ [⟨s.nextId, pid, amt⟩],
                nextId := s.nextId + 1 }) := by
  have hok : checkedInsertOk s pid amt = true :=
    (checkedInsertOk_iff s pid amt hU).mpr ⟨p, h, hle⟩
  simp only [refundsPost, h, hst, ne_eq, not_true_eq_false, if_false,
    checked_insert_eq_of_ok s pid amt hok]

/-- Equation for the refund handler when the amount overruns the payment:
a 422 rejection, with the store unchanged. -/
theorem refundsPost_eq_excessive (s : Store) (pid : Nat) (amt : Int)
    (p : Payment) (hU : UniqueIds s) (h : paymentsGet s pid = some p)
    (hst : p.status = Status.Approved)
    (hgt : ¬ refundSum s pid + amt ≤ p.amount) :
    refundsPost s pid amt = (.error (422, "excessive refund amount requested"), s) := by
  have hnot : ¬ checkedInsertOk s pid amt = true := by
    intro hok
    obtain ⟨q, hq, hle⟩ := (checkedInsertOk_iff s pid amt hU).mp hok
    rw [h] at hq
    injection hq with hq
    rw [← hq] at hle
    exact hgt hle
  simp only [refundsPost, h, hst, ne_eq, not_true_eq_false, if_false,
    checked_insert_eq_of_notok s pid amt hnot]

/-- C2 counterexample: a direct invocation of the store-layer checked insert
against a payment whose status is Processing (not Approved) succeeds and
writes a Refund row, so the atomic operation does not itself enforce the
Approved-status precondition. -/
theorem refund_atomic_status_counterexample :
    (checked_insert processing5 0 3).1 = some 1 ∧
    (⟨1, 0, 3⟩ : Refund) ∈ (checked_insert processing5 0 3).2.refunds ∧
    ∀ p ∈ processing5.payments, p.status = Status.Processing := by
  exact ⟨rfl, by decide, by decide⟩

/-- C2 (amended): the single atomic store-layer conditional insert enforces
only that the payment exists and that the existing refund sum plus the
requested amount fits the payment amount — it checks nothing about the
payment status. The Approved-status precondition is checked separately,
outside the atomic operation, by the web handler before it invokes the
insert, and the handler returns a created outcome only when the payment it
read was Approved. -/
theorem refund_atomic_preconditions (s : Store) (pid : Nat) (amt : Int)
    (hU : UniqueIds s) :
    ((checked_insert s pid amt).1.isSome = true ↔
      ∃ p, paymentsGet s pid = some p ∧ refundSum s pid + amt ≤ p.amount) ∧
    (∀ out s', refundsPost s pid amt = (out, s') → (∃ v, out = .ok v) →
      ∃ p, paymentsGet s pid = some p ∧ p.status = Status.Approved) := by
  constructor
  · by_cases hc : checkedInsertOk s pid amt = true
    · rw [checked_insert_eq_of_ok s pid amt hc]
      simpa using (checkedInsertOk_iff s pid amt hU).mp hc
    · rw [checked_insert_eq_of_notok s pid amt hc]
      exact iff_of_false (by simp)
        (fun hex => hc ((checkedInsertOk_iff s pid amt hU).mpr hex))
  · intro out s' heq hok
    obtain ⟨v, rfl⟩ := hok
    match hget : paymentsGet s pid with
    | none =>
      rw [refundsPost_eq_of_missing s pid amt hget] at heq
      simp at heq
    | some p =>
      by_cases hst : p.status = Status.Approved
      · exact ⟨p, rfl, hst⟩
      · rw [refundsPost_eq_of_notapproved s pid amt p hget hst] at heq
        simp at heq

/-- Witness for the amended C2 theorem at a concrete store whose only
payment is still Processing. -/
theorem refund_atomic_preconditions_witness :
    (checked_insert processing5 0 3).1.isSome = true ↔
      ∃ p, paymentsGet processing5 0 = some p ∧ refundSum processing5 0 + 3 ≤ p.amount :=
  (refund_atomic_preconditions processing5 0 3 (by unfold UniqueIds; decide)).1

/-- C6: Refund request outcomes. The handler returns a created outcome
carrying the new refund id exactly when the payment exists, is Approved and
the refund sum plus the requested amount fits; a missing payment and a
non-Approved payment each give a 404 with distinguishable bodies; an
overrunning amount gives a 422 rejection with the store unchanged. -/
theorem refund_request_outcomes (s : Store) (pid : Nat) (amt : Int)
    (hU : UniqueIds s) :
    ((∃ id s', refundsPost s pid amt = (.ok (201, ⟨id, amt, pid⟩), s') ∧
        (⟨id, pid, amt⟩ : Refund) ∈ s'.refunds) ↔
      ∃ p, paymentsGet s pid = some p ∧ p.status = Status.Approved ∧
        refundSum s pid + amt ≤ p.amount) ∧
    (paymentsGet s pid = none →
      refundsPost s pid amt = (.error (404, "payment does not exist"), s)) ∧
    (∀ p, paymentsGet s pid = some p → p.status ≠ Status.Approved →
      refundsPost s pid amt = (.error (404, "has a status other than approved"), s)) ∧
    ("payment does not exist" ≠ "has a status other than approved") ∧
    (∀ p, paymentsGet s pid = some p → p.status = Status.Approved →
      ¬ refundSum s pid + amt ≤ p.amount →
      refundsPost s pid amt = (.error (422, "excessive refund amount requested"), s)) := by
  refine ⟨?_, refundsPost_eq_of_missing s pid amt,
    refundsPost_eq_of_notapproved s pid amt, by decide,
    fun p h hst hgt => refundsPost_eq_excessive s pid amt p hU h hst hgt⟩
  constructor
  · rintro ⟨id, s', heq, hmem⟩
    match hget : paymentsGet s pid with
    | none =>
      rw [refundsPost_eq_of_missing s pid amt hget] at heq
      simp at heq
    | some p =>
      by_cases hst : p.status = Status.Approved
      · by_cases hle : refundSum s pid + amt ≤ p.amount
        · exact ⟨p, rfl, hst, hle⟩
        · rw [refundsPost_eq_excessive s pid amt p hU hget hst hle] at heq
          simp at heq
      · rw [refundsPost_eq_of_notapproved s pid amt p hget hst] at heq
        simp at heq
  · rintro ⟨p, hget, hst, hle⟩
    refine ⟨s.nextId, _, refundsPost_eq_created s pid amt p hU hget hst hle, ?_⟩
    simp

/-- Witness for the refund-outcome theorem: a 42 refund against the approved
1205 payment is created. -/
theorem refund_request_outcomes_witness :
    ∃ id s', refundsPost approved1205 0 42 = (.ok (201, ⟨id, 42, 0⟩), s') ∧
      (⟨id, 0, 42⟩ : Refund) ∈ s'.refunds :=
  ((refund_request_outcomes approved1205 0 42 (by unfold UniqueIds; decide)).1).mpr
    ⟨⟨0, 1205, "123456789012345", Status.Approved⟩, by decide, rfl, by decide⟩

/-- C10 counterexample: a create-refund request of amount 0 against an
approved payment is accepted — it returns a created outcome and persists a
Refund row whose amount is 0, so not every persisted refund row has a
positive amount. -/
theorem refund_positivity_counterexample :
    (refundsPost approved5 0 0).1 = .ok (201, ⟨1, 0, 0⟩) ∧
    (⟨1, 0, 0⟩ : Refund) ∈ (refundsPost approved5 0 0).2.refunds := by
  exact ⟨rfl, by decide⟩

/-- C10 (amended): the create-refund operation performs no positivity check
on the amount. A request of amount ≤ 0 against an existing Approved payment
in an invariant-respecting store is always accepted: it returns a created
outcome and writes a Refund row carrying that non-positive amount. -/
theorem refund_nonpositive_accepted (s : Store) (pid : Nat) (amt : Int)
    (hU : UniqueIds s) (hI : RefundInvariant s) (hamt : amt ≤ 0)
    (p : Payment) (hget : paymentsGet s pid = some p)
    (hst : p.status = Status.Approved) :
    refundsPost s pid amt =
      (.ok (201, ⟨s.nextId, amt, pid⟩),
       { s with refunds := s.refunds ++ [⟨s.nextId, pid, amt⟩],
                nextId := s.nextId + 1 }) := by
  obtain ⟨hmem, hid⟩ := paymentsGet_mem s pid p hget
  have hinv := hI p hmem
  rw [hid] at hinv
  exact refundsPost_eq_created s pid amt p hU hget hst (by omega)

/-- Witness for the amended C10 theorem: the zero-amount refund against the
approved payment of amount 5, evaluated concretely. -/
theorem refund_nonpositive_accepted_witness :
    refundsPost approved5 0 0 =
      (.ok (201, ⟨approved5.nextId, 0, 0⟩),
       { approved5 with refunds := approved5.refunds ++ [⟨approved5.nextId, 0, 0⟩],
                        nextId := approved5.nextId + 1 }) :=
  refund_nonpositive_accepted approved5 0 0 (by unfold UniqueIds; decide)
    (by unfold RefundInvariant; decide) (by decide)
    ⟨0, 5, "987654321098765", Status.Approved⟩ (by decide) rfl

/-- Equation for the reservation insert when the card number is unused. -/
theorem paymentsInsert_eq_of_free (s : Store) (amount : Int) (card : String)
    (st : Status) (hfree : ∀ q ∈ s.payments, q.card_number ≠ card) :
    paymentsInsert s amount card st =
      some (s.nextId,
        { s with payments := s.payments ++ [⟨s.nextId, amount, card, st⟩],
                 nextId := s.nextId + 1 }) := by
  have hany : s.payments.any (fun p => p.card_number == card) = false := by
    rw [List.any_eq_false]
    intro q hq
    simpa using hfree q hq
  unfold paymentsInsert
  rw [if_neg (by simp [hany])]

/-- Equation for the reservation insert when the card number was already
used by some payment row. -/
theorem paymentsInsert_eq_of_used (s : Store) (amount : Int) (card : String)
    (st : Status) (hused : ∃ q ∈ s.payments, q.card_number = card) :
    paymentsInsert s amount card st = none := by
  have hany : s.payments.any (fun p => p.card_number == card) = true := by
    rw [List.any_eq_true]
    obtain ⟨q, hq, hcard⟩ := hused
    exact ⟨q, hq, by simp [hcard]⟩
  unfold paymentsInsert
  rw [if_pos (by simp [hany])]

/-- The status update maps the row with the given id to the new status. -/
theorem paymentsUpdate_mem (s : Store) (pid : Nat) (st : Status) (p : Payment)
    (hp : p ∈ s.payments) (hid : p.id = pid) :
    ({ p with status := st } : Payment) ∈ (paymentsUpdate s pid st).payments := by
  unfold paymentsUpdate
  simp only [List.mem_map]
  exact ⟨p, hp, by simp [hid]⟩

/-- The status update never changes the set of row ids. -/
theorem paymentsUpdate_ids (s : Store) (pid : Nat) (st : Status) :
    (paymentsUpdate s pid st).payments.map (fun p => p.id)
      = s.payments.map (fun p => p.id) := by
  unfold paymentsUpdate
  simp only [List.map_map]
  refine List.map_congr_left ?_
  intro p hp
  by_cases h : p.id = pid
  · simp [Function.comp, h]
  · simp [Function.comp, h]

/-- Equation for the saga on a zero amount: a 204 before any effect. -/
theorem paymentsPost_eq_zero (s : Store) (card : String)
    (w1 : Except String HoldRef) (w2 : Except String Unit) :
    paymentsPost s 0 card w1 w2 = ⟨.error (204, "Amount should not be 0"), s, []⟩ := by
  unfold paymentsPost
  rw [if_pos rfl]

/-- Equation for the saga on a negative amount: a 400 before any effect. -/
theorem paymentsPost_eq_negative (s : Store) (amount : Int) (card : String)
    (w1 : Except String HoldRef) (w2 : Except String Unit) (h : amount < 0) :
    paymentsPost s amount card w1 w2
      = ⟨.error (400, "Amount should not be negative"), s, []⟩ := by
  unfold paymentsPost
  rw [if_neg (show ¬ amount = 0 by omega), if_pos h]

/-- Equation for the saga on a malformed card: a 422 before any effect. -/
theorem paymentsPost_eq_badcard (s : Store) (amount : Int) (card : String)
    (w1 : Except String HoldRef) (w2 : Except String Unit) (err : CardError)
    (h0 : 0 < amount) (hc : Card.tryFrom card = .error err) :
    paymentsPost s amount card w1 w2
      = ⟨.error (422, "Bad Card Number format"), s, []⟩ := by
  unfold paymentsPost
  rw [if_neg (show ¬ amount = 0 by omega), if_neg (show ¬ amount < 0 by omega), hc]

/-- Equation for the saga when the card number was already used: the
reservation insert fails, the request is rejected as a 422, and nothing
else happens — no service call, no status update, store unchanged. -/
theorem paymentsPost_eq_used (s : Store) (amount : Int) (card : String)
    (c : Card) (w1 : Except String HoldRef) (w2 : Except String Unit)
    (h0 : 0 < amount) (hc : Card.tryFrom card = .ok c)
    (hused : ∃ q ∈ s.payments, q.card_number = card) :
    paymentsPost s amount card w1 w2
      = ⟨.error (422, "card_number already used"), s, [.insertAttempt false]⟩ := by
  unfold paymentsPost
  rw [if_neg (show ¬ amount = 0 by omega), if_neg (show ¬ amount < 0 by omega), hc,
    paymentsInsert_eq_of_used s amount card Status.Processing hused]

/-- Equation for the saga when `place_hold` fails: the reservation row is
inserted, the error is classified, the row is updated to the classified
status, and the response carries a freshly drawn id with that status. -/
theorem paymentsPost_eq_holdfail (s : Store) (amount : Int) (card : String)
    (c : Card) (e : String) (w : Except String Unit)
    (h0 : 0 < amount) (hc : Card.tryFrom card = .ok c)
    (hfree : ∀ q ∈ s.payments, q.card_number ≠ card) :
    paymentsPost s amount card (.error e) w =
      ⟨.ok ((PaymentError.fromStr e).get_http_status_code,
          ⟨s.nextId + 1, amount, card, (PaymentError.fromStr e).get_payment_status⟩),
        { paymentsUpdate
            ⟨s.payments ++ [⟨s.nextId, amount, card, Status.Processing⟩],
             s.refunds, s.nextId + 1⟩
            s.nextId (PaymentError.fromStr e).get_payment_status
          with nextId := s.nextId + 2 },
        [.insertAttempt true, .placeHold c.account_number amount false,
         .updateStatus s.nextId (PaymentError.fromStr e).get_payment_status]⟩ := by
  unfold paymentsPost
  rw [if_neg (show ¬ amount = 0 by omega), if_neg (show ¬ amount < 0 by omega), hc,
    paymentsInsert_eq_of_free s amount card Status.Processing hfree]
  rfl

/-- Equation for the saga when the hold succeeds and `withdraw_funds` fails:
the row goes `Processing`, then `Approved`, then the classified terminal
status; no `release_hold` call appears anywhere in the trace. -/
theorem paymentsPost_eq_withdrawfail (s : Store) (amount : Int) (card : String)
    (c : Card) (h : HoldRef) (e : String)
    (h0 : 0 < amount) (hc : Card.tryFrom card = .ok c)
    (hfree : ∀ q ∈ s.payments, q.card_number ≠ card) :
    paymentsPost s amount card (.ok h) (.error e) =
      ⟨.ok ((PaymentError.fromStr e).get_http_status_code,
          ⟨s.nextId + 1, amount, card, (PaymentError.fromStr e).get_payment_status⟩),
        { paymentsUpdate
            (paymentsUpdate
              ⟨s.payments ++ [⟨s.nextId, amount, card, Status.Processing⟩],
               s.refunds, s.nextId + 1⟩
              s.nextId Status.Approved)
            s.nextId (PaymentError.fromStr e).get_payment_status
          with nextId := s.nextId + 2 },
        [.insertAttempt true, .placeHold c.account_number amount true,
         .updateStatus s.nextId Status.Approved, .withdrawFunds false,
         .updateStatus s.nextId (PaymentError.fromStr e).get_payment_status]⟩ := by
  unfold paymentsPost
  rw [if_neg (show ¬ amount = 0 by omega), if_neg (show ¬ amount < 0 by omega), hc,
    paymentsInsert_eq_of_free s amount card Status.Processing hfree]
  rfl

/-- Helper for case analysis on the saga: split a payment request into the
five possible shapes of its execution. -/
theorem paymentsPost_cases (s : Store) (amount : Int) (card : String) :
    amount = 0 ∨ amount < 0 ∨
      (0 < amount ∧ ∃ err, Card.tryFrom card = .error err) ∨
      (0 < amount ∧ (∃ c, Card.tryFrom card = .ok c) ∧
        ∃ q ∈ s.payments, q.card_number = card) ∨
      (0 < amount ∧ (∃ c, Card.tryFrom card = .ok c) ∧
        ∀ q ∈ s.payments, q.card_number ≠ card) := by
  by_cases h0 : amount = 0
  · exact Or.inl h0
  · by_cases hneg : amount < 0
    · exact Or.inr (Or.inl hneg)
    · have hpos : 0 < amount := by omega
      match hc : Card.tryFrom card with
      | .error err => exact Or.inr (Or.inr (Or.inl ⟨hpos, err, rfl⟩))
      | .ok c =>
        by_cases hused : ∃ q ∈ s.payments, q.card_number = card
        · exact Or.inr (Or.inr (Or.inr (Or.inl ⟨hpos, ⟨c, rfl⟩, hused⟩)))
        · refine Or.inr (Or.inr (Or.inr (Or.inr ⟨hpos, ⟨c, rfl⟩, ?_⟩)))
          intro q hq hcard
          exact hused ⟨q, hq, hcard⟩

/-- Equation for the saga on full success: hold and withdraw both succeed,
the row is left `Approved`, and the 201 response carries the row's own id. -/
theorem paymentsPost_eq_success (s : Store) (amount : Int) (card : String)
    (c : Card) (h : HoldRef)
    (h0 : 0 < amount) (hc : Card.tryFrom card = .ok c)
    (hfree : ∀ q ∈ s.payments, q.card_number ≠ card) :
    paymentsPost s amount card (.ok h) (.ok ()) =
      ⟨.ok (201, ⟨s.nextId, amount, card, Status.Approved⟩),
        paymentsUpdate
          ⟨s.payments ++ [⟨s.nextId, amount, card, Status.Processing⟩],
           s.refunds, s.nextId + 1⟩
          s.nextId Status.Approved,
        [.insertAttempt true, .placeHold c.account_number amount true,
         .updateStatus s.nextId Status.Approved, .withdrawFunds true]⟩ := by
  unfold paymentsPost
  rw [if_neg (show ¬ amount = 0 by omega), if_neg (show ¬ amount < 0 by omega), hc,
    paymentsInsert_eq_of_free s amount card Status.Processing hfree]

/-- C8: Single-use card ordering. In every saga execution the trace is
either empty (pre-validation rejected before any effect) or begins with the
reservation insert — so the insert precedes any Account Service call — and
when the insert fails nothing follows it. When the card number was already
used, the request is rejected as a 422 unprocessable-entity conflict with
the store unchanged: place_hold is never invoked and no status update is
performed. -/
theorem reservation_precedes_hold (s : Store) (amount : Int) (card : String)
    (w1 : Except String HoldRef) (w2 : Except String Unit) :
    ((paymentsPost s amount card w1 w2).trace = [] ∨
      ∃ b rest, (paymentsPost s amount card w1 w2).trace
          = Event.insertAttempt b :: rest ∧ (b = false → rest = [])) ∧
    (∀ c, 0 < amount → Card.tryFrom card = .ok c →
      (∃ q ∈ s.payments, q.card_number = card) →
      paymentsPost s amount card w1 w2
        = ⟨.error (422, "card_number already used"), s, [.insertAttempt false]⟩) := by
  constructor
  · rcases paymentsPost_cases s amount card with h0 | hneg | ⟨hpos, err, hc⟩
      | ⟨hpos, ⟨c, hc⟩, hused⟩ | ⟨hpos, ⟨c, hc⟩, hfree⟩
    · subst h0
      rw [paymentsPost_eq_zero s card w1 w2]
      exact Or.inl rfl
    · rw [paymentsPost_eq_negative s amount card w1 w2 hneg]
      exact Or.inl rfl
    · rw [paymentsPost_eq_badcard s amount card w1 w2 err hpos hc]
      exact Or.inl rfl
    · rw [paymentsPost_eq_used s amount card c w1 w2 hpos hc hused]
      exact Or.inr ⟨false, [], rfl, fun _ => rfl⟩
    · match w1 with
      | .error e =>
        rw [paymentsPost_eq_holdfail s amount card c e w2 hpos hc hfree]
        exact Or.inr ⟨true, _, rfl, by simp⟩
      | .ok h =>
        match w2 with
        | .error e =>
          rw [paymentsPost_eq_withdrawfail s amount card c h e hpos hc hfree]
          exact Or.inr ⟨true, _, rfl, by simp⟩
        | .ok () =>
          rw [paymentsPost_eq_success s amount card c h hpos hc hfree]
          exact Or.inr ⟨true, _, rfl, by simp⟩
  · intro c h0 hc hused
    exact paymentsPost_eq_used s amount card c w1 w2 h0 hc hused

/-- Witness for the single-use-card theorem: a second request on the already
used card 123456789012345 is rejected before any service call. -/
theorem reservation_precedes_hold_witness :
    paymentsPost approved1205 5 "123456789012345" (.ok ⟨9⟩) (.ok ())
      = ⟨.error (422, "card_number already used"), approved1205,
         [.insertAttempt false]⟩ :=
  (reservation_precedes_hold approved1205 5 "123456789012345" (.ok ⟨9⟩) (.ok ())).2
    ⟨"123456789012345"⟩ (by decide) rfl (by decide)

/-- C4: the hold-resolution contract is violated on the withdraw-failure
path. In the execution where place_hold succeeds and withdraw_funds then
fails, the trace contains the successful hold and the failed withdraw call
but no release_hold call at all: the number of successful resolutions of
the hold is 0, not the exactly 1 the contract requires, so the hold is left
unresolved. -/
theorem hold_left_unresolved :
    Event.placeHold "12" 5 true ∈ sagaWithdrawFail.trace ∧
    Event.withdrawFunds false ∈ sagaWithdrawFail.trace ∧
    (∀ b, Event.releaseHold b ∉ sagaWithdrawFail.trace) ∧
    successfulResolutions sagaWithdrawFail.trace = 0 := by
  exact ⟨by decide, by decide, by decide, rfl⟩

/-- C3 counterexample: the Account Service error invalid_amount is
classified to HTTP 400 with payment status Failed, not Declined as the
claim states, and the row is persisted as Failed. -/
theorem error_classification_counterexample :
    (PaymentError.fromStr "invalid_amount").get_payment_status = Status.Failed ∧
    Status.Failed ≠ Status.Declined ∧
    sagaInvalidAmount.store.payments = [⟨0, 5, "123456789012345", Status.Failed⟩] ∧
    sagaInvalidAmount.result = .ok (400, ⟨1, 5, "123456789012345", Status.Failed⟩) := by
  exact ⟨rfl, by decide, rfl, rfl⟩

/-- C3 (amended): the error classification is the fixed total mapping
invalid_account_number to (403 forbidden, Declined), invalid_amount to
(400 bad-request, Failed — not Declined), insufficient_funds to
(402 payment-required, Declined), and service_unavailable or any unknown
error to (500 internal-error, Failed); the identical mapping — the same
classification function — is applied whether the error comes from
place_hold or from withdraw_funds, and the resulting terminal status is
written to the persisted Payment row. -/
theorem error_classification (e : String) (s : Store) (amount : Int)
    (card : String) (c : Card) (w : Except String Unit) (h : HoldRef)
    (h0 : 0 < amount) (hc : Card.tryFrom card = .ok c)
    (hfree : ∀ q ∈ s.payments, q.card_number ≠ card) :
    (((PaymentError.fromStr e).get_http_status_code,
        (PaymentError.fromStr e).get_payment_status) =
      if e = "invalid_account_number" then ((403 : Nat), Status.Declined)
      else if e = "invalid_amount" then ((400 : Nat), Status.Failed)
      else if e = "insufficient_funds" then ((402 : Nat), Status.Declined)
      else ((500 : Nat), Status.Failed)) ∧
    ((paymentsPost s amount card (.error e) w).result
        = .ok ((PaymentError.fromStr e).get_http_status_code,
            ⟨s.nextId + 1, amount, card, (PaymentError.fromStr e).get_payment_status⟩) ∧
      (⟨s.nextId, amount, card, (PaymentError.fromStr e).get_payment_status⟩ : Payment)
        ∈ (paymentsPost s amount card (.error e) w).store.payments) ∧
    ((paymentsPost s amount card (.ok h) (.error e)).result
        = .ok ((PaymentError.fromStr e).get_http_status_code,
            ⟨s.nextId + 1, amount, card, (PaymentError.fromStr e).get_payment_status⟩) ∧
      (⟨s.nextId, amount, card, (PaymentError.fromStr e).get_payment_status⟩ : Payment)
        ∈ (paymentsPost s amount card (.ok h) (.error e)).store.payments) := by
  refine ⟨?_, ⟨?_, ?_⟩, ⟨?_, ?_⟩⟩
  · by_cases h1 : e = "invalid_account_number"
    · subst h1
      decide
    · by_cases h2 : e = "invalid_amount"
      · subst h2
        decide
      · by_cases h3 : e = "insufficient_funds"
        · subst h3
          decide
        · rw [if_neg h1, if_neg h2, if_neg h3]
          unfold PaymentError.fromStr
          rw [if_neg h1, if_neg h2, if_neg h3]
          decide
  · rw [paymentsPost_eq_holdfail s amount card c e w h0 hc hfree]
  · rw [paymentsPost_eq_holdfail s amount card c e w h0 hc hfree]
    exact paymentsUpdate_mem _ s.nextId _
      ⟨s.nextId, amount, card, Status.Processing⟩ (by simp) rfl
  · rw [paymentsPost_eq_withdrawfail s amount card c h e h0 hc hfree]
  · rw [paymentsPost_eq_withdrawfail s amount card c h e h0 hc hfree]
    exact paymentsUpdate_mem _ s.nextId _
      ⟨s.nextId, amount, card, Status.Approved⟩
      (paymentsUpdate_mem _ s.nextId _
        ⟨s.nextId, amount, card, Status.Processing⟩ (by simp) rfl) rfl

/-- Witness for the classification theorem: the insufficient_funds hold
failure against the empty store. -/
theorem error_classification_witness :
    (paymentsPost emptyStore 5 "123456789012345"
        (.error "insufficient_funds") (.ok ())).result
      = .ok ((PaymentError.fromStr "insufficient_funds").get_http_status_code,
          ⟨emptyStore.nextId + 1, 5, "123456789012345",
           (PaymentError.fromStr "insufficient_funds").get_payment_status⟩) :=
  ((error_classification "insufficient_funds" emptyStore 5 "123456789012345"
      ⟨"123456789012345"⟩ (.ok ()) ⟨0⟩ (by decide) rfl (by decide)).2.1).1

/-- In a wellformed store, an id strictly above the fresh supply matches no
row of a table whose ids are the original ids plus the one drawn id. -/
theorem freshId_not_mem (s : Store) (l : List Payment) (hwf : StoreWF s)
    (hids : l.map (fun p => p.id) = s.payments.map (fun p => p.id) ++ [s.nextId]) :
    s.nextId + 1 ∉ l.map (fun p => p.id) := by
  rw [hids]
  simp only [List.mem_append, List.mem_map, List.mem_singleton]
  rintro (⟨p, hp, hpid⟩ | hid)
  · have := hwf p hp
    omega
  · omega

/-- C9 counterexample: in the insufficient_funds execution a Payment row IS
persisted (id 0, status Declined), yet the response carries the freshly
generated id 1, which is the id of no persisted row — the response does not
identify the persisted record and a fresh id appears although a row was
persisted. -/
theorem response_id_counterexample :
    sagaHoldFail.store.payments = [⟨0, 5, "123456789012345", Status.Declined⟩] ∧
    sagaHoldFail.result = .ok (402, ⟨1, 5, "123456789012345", Status.Declined⟩) ∧
    (1 : Nat) ∉ sagaHoldFail.store.payments.map (fun p => p.id) := by
  exact ⟨rfl, rfl, by decide⟩

/-- C9 (amended): only the created (Approved) outcome's response carries the
id of the persisted row. On the hold-failure and withdraw-failure outcomes a
row is persisted but the response carries a freshly generated id that equals
the id of no row in the final store, so recovery by the returned id works
only for approved payments. -/
theorem response_identifies_record (s : Store) (amount : Int) (card : String)
    (c : Card) (h : HoldRef)
    (h0 : 0 < amount) (hc : Card.tryFrom card = .ok c)
    (hfree : ∀ q ∈ s.payments, q.card_number ≠ card) (hwf : StoreWF s) :
    ((paymentsPost s amount card (.ok h) (.ok ())).result
        = .ok (201, ⟨s.nextId, amount, card, Status.Approved⟩) ∧
      (⟨s.nextId, amount, card, Status.Approved⟩ : Payment)
        ∈ (paymentsPost s amount card (.ok h) (.ok ())).store.payments) ∧
    (∀ e w, (paymentsPost s amount card (.error e) w).result
        = .ok ((PaymentError.fromStr e).get_http_status_code,
            ⟨s.nextId + 1, amount, card, (PaymentError.fromStr e).get_payment_status⟩) ∧
      s.nextId + 1
        ∉ (paymentsPost s amount card (.error e) w).store.payments.map (fun p => p.id)) ∧
    (∀ e, (paymentsPost s amount card (.ok h) (.error e)).result
        = .ok ((PaymentError.fromStr e).get_http_status_code,
            ⟨s.nextId + 1, amount, card, (PaymentError.fromStr e).get_payment_status⟩) ∧
      s.nextId + 1
        ∉ (paymentsPost s amount card (.ok h) (.error e)).store.payments.map
            (fun p => p.id)) := by
  refine ⟨⟨?_, ?_⟩, ?_, ?_⟩
  · rw [paymentsPost_eq_success s amount card c h h0 hc hfree]
  · rw [paymentsPost_eq_success s amount card c h h0 hc hfree]
    exact paymentsUpdate_mem _ s.nextId _
      ⟨s.nextId, amount, card, Status.Processing⟩ (by simp) rfl
  · intro e w
    rw [paymentsPost_eq_holdfail s amount card c e w h0 hc hfree]
    refine ⟨rfl, ?_⟩
    show s.nextId + 1 ∉
      (paymentsUpdate
        ⟨s.payments ++ [⟨s.nextId, amount, card, Status.Processing⟩],
         s.refunds, s.nextId + 1⟩
        s.nextId (PaymentError.fromStr e).get_payment_status).payments.map
          (fun p => p.id)
    apply freshId_not_mem s _ hwf
    rw [paymentsUpdate_ids]
    simp
  · intro e
    rw [paymentsPost_eq_withdrawfail s amount card c h e h0 hc hfree]
    refine ⟨rfl, ?_⟩
    show s.nextId + 1 ∉
      (paymentsUpdate
        (paymentsUpdate
          ⟨s.payments ++ [⟨s.nextId, amount, card, Status.Processing⟩],
           s.refunds, s.nextId + 1⟩
          s.nextId Status.Approved)
        s.nextId (PaymentError.fromStr e).get_payment_status).payments.map
          (fun p => p.id)
    apply freshId_not_mem s _ hwf
    rw [paymentsUpdate_ids, paymentsUpdate_ids]
    simp

/-- Witness for the response-identity theorem: the fully successful payment
against the empty store returns the persisted row's id. -/
theorem response_identifies_record_witness :
    (paymentsPost emptyStore 5 "123456789012345" (.ok ⟨0⟩) (.ok ())).result
      = .ok (201, ⟨emptyStore.nextId, 5, "123456789012345", Status.Approved⟩) ∧
    (⟨emptyStore.nextId, 5, "123456789012345", Status.Approved⟩ : Payment)
      ∈ (paymentsPost emptyStore 5 "123456789012345" (.ok ⟨0⟩) (.ok ())).store.payments :=
  (response_identifies_record emptyStore 5 "123456789012345" ⟨"123456789012345"⟩ ⟨0⟩
    (by decide) rfl (by decide) (by unfold StoreWF; decide)).1

/-- ASCII digits occupy one UTF-8 byte. -/
theorem charBytes_of_digit (c : Char) (h : isDigitChar c = true) :
    charBytes c = 1 := by
  simp only [isDigitChar, decide_eq_true_eq] at h
  unfold charBytes
  rw [if_pos (by omega)]

/-- A string of one-byte characters has byte length equal to its character
count. -/
theorem sum_charBytes_eq_length (l : List Char) (h : ∀ c ∈ l, charBytes c = 1) :
    (l.map charBytes).sum = l.length := by
  induction l with
  | nil => simp
  | cons c t ih =>
    simp only [List.map_cons, List.sum_cons, List.length_cons,
      h c (by simp)]
    rw [ih (fun d hd => h d (by simp [hd]))]
    omega

/-- An ASCII digit is not the plus sign. -/
theorem digit_ne_plus (c : Char) (h : isDigitChar c = true) : ¬ c = '+' := by
  intro he
  subst he
  simp [isDigitChar] at h

/-- The accumulating base-10 fold over digit characters stays below
`(acc + 1) * 10 ^ length`. -/
theorem foldl_digits_lt (l : List Char) (acc : Nat)
    (h : l.all isDigitChar = true) :
    l.foldl (fun a d => 10 * a + (d.toNat - 48)) acc < (acc + 1) * 10 ^ l.length := by
  induction l generalizing acc with
  | nil => simp
  | cons d t ih =>
    simp only [List.all_cons, Bool.and_eq_true] at h
    have hd : d.toNat - 48 ≤ 9 := by
      have := h.1
      simp only [isDigitChar, decide_eq_true_eq] at this
      omega
    have hrec := ih (10 * acc + (d.toNat - 48)) h.2
    calc (d :: t).foldl (fun a d => 10 * a + (d.toNat - 48)) acc
        = t.foldl (fun a d => 10 * a + (d.toNat - 48)) (10 * acc + (d.toNat - 48)) := rfl
      _ < (10 * acc + (d.toNat - 48) + 1) * 10 ^ t.length := hrec
      _ ≤ ((acc + 1) * 10) * 10 ^ t.length := by
          exact Nat.mul_le_mul_right _ (by omega)
      _ = (acc + 1) * 10 ^ (d :: t).length := by
          rw [List.length_cons, pow_succ]
          ring

/-- The card conversion succeeds exactly when the string has byte length 15
and parses as `u64`, and then the card stores the string unchanged. -/
theorem tryFrom_ok_iff (s : String) :
    (∃ c, Card.tryFrom s = .ok c) ↔
      rustLen s = CARD_NUMBER_LENGTH ∧ ∃ v, parseU64 s = some v := by
  unfold Card.tryFrom
  by_cases hl : rustLen s ≠ CARD_NUMBER_LENGTH
  · rw [if_pos hl]
    exact iff_of_false (by simp) (fun h => hl h.1)
  · rw [if_neg hl]
    match hp : parseU64 s with
    | none =>
      refine iff_of_false (by simp) ?_
      rintro ⟨-, v, hv⟩
      cases hv
    | some v =>
      exact iff_of_true ⟨⟨s⟩, rfl⟩ ⟨by omega, v, rfl⟩

/-- The digit loop accepts exactly the nonempty all-digit runs whose value
fits in a `u64`. -/
theorem parseDigits_some_iff (digits : List Char) :
    (∃ v, parseDigits digits = some v) ↔
      digits ≠ [] ∧ digits.all isDigitChar = true ∧
        digits.foldl (fun acc d => 10 * acc + (d.toNat - 48)) 0 < 2 ^ 64 := by
  unfold parseDigits
  by_cases h1 : digits.isEmpty
  · rw [if_pos h1]
    rw [List.isEmpty_iff] at h1
    exact iff_of_false (by simp) (fun h => h.1 h1)
  · rw [if_neg h1]
    by_cases h2 : digits.all isDigitChar
    · rw [if_pos h2]
      by_cases h3 : digits.foldl (fun acc d => 10 * acc + (d.toNat - 48)) 0 < 2 ^ 64
      · rw [if_pos h3]
        exact iff_of_true ⟨_, rfl⟩
          ⟨fun he => by simp [he] at h1, h2, h3⟩
      · rw [if_neg h3]
        exact iff_of_false (by simp) (fun h => h3 h.2.2)
    · rw [if_neg h2]
      exact iff_of_false (by simp) (fun h => h2 h.2.1)

/-- Unfolding of the `u64` parser on a nonempty string. -/
theorem parseU64_eq (s : String) (c : Char) (rest : List Char)
    (hsd : s.data = c :: rest) :
    parseU64 s = parseDigits (if c = '+' then rest else c :: rest) := by
  unfold parseU64
  rw [hsd]

/-- C7 counterexample: a plus sign followed by 14 ones is accepted by the
card conversion although it is not a string of 15 numeric digits — Rust's
`u64` parser strips an optional leading `+`. -/
theorem card_validation_counterexample :
    Card.tryFrom "+11111111111111" = .ok ⟨"+11111111111111"⟩ ∧
    ¬ ("+11111111111111".data.all isDigitChar = true) := by
  exact ⟨rfl, by decide⟩

/-- The card conversion succeeds exactly on the strings that are 15
ASCII decimal digits or a plus sign followed by 14 ASCII decimal digits.
-/
theorem tryFrom_ok_chars_iff (s : String) :
    (∃ c, Card.tryFrom s = .ok c) ↔
    (s.data.length = 15 ∧ s.data.all isDigitChar = true) ∨
    (s.data.length = 15 ∧ s.data.head? = some '+' ∧
      s.data.tail.all isDigitChar = true) := by
  constructor
  · intro hok
    obtain ⟨hlen, v, hv⟩ := (tryFrom_ok_iff s).mp hok
    cases hsd : s.data with
    | nil =>
      have : parseU64 s = none := by unfold parseU64; rw [hsd]
      rw [this] at hv
      cases hv
    | cons c rest =>
      rw [parseU64_eq s c rest hsd] at hv
      by_cases hcp : c = '+'
      · rw [if_pos hcp] at hv
        obtain ⟨hne, hall, -⟩ := (parseDigits_some_iff rest).mp ⟨v, hv⟩
        have hone : ∀ ch ∈ s.data, charBytes ch = 1 := by
          intro ch hch
          rw [hsd] at hch
          rcases List.mem_cons.mp hch with h1 | h2
          · rw [h1, hcp]
            decide
          · exact charBytes_of_digit ch (List.all_eq_true.mp hall ch h2)
        have hlen' : s.data.length = 15 := by
          rw [← sum_charBytes_eq_length s.data hone]
          exact hlen
        rw [hsd] at hlen'
        refine Or.inr ⟨hlen', ?_, ?_⟩
        · simp [hcp]
        · exact hall
      · rw [if_neg hcp] at hv
        obtain ⟨-, hall, -⟩ := (parseDigits_some_iff (c :: rest)).mp ⟨v, hv⟩
        have hone : ∀ ch ∈ s.data, charBytes ch = 1 := by
          intro ch hch
          rw [hsd] at hch
          exact charBytes_of_digit ch (List.all_eq_true.mp hall ch hch)
        have hlen' : s.data.length = 15 := by
          rw [← sum_charBytes_eq_length s.data hone]
          exact hlen
        rw [hsd] at hlen'
        exact Or.inl ⟨hlen', hall⟩
  · rintro (⟨hlen, hall⟩ | ⟨hlen, hhead, htail⟩)
    · obtain ⟨c, rest, hsd⟩ : ∃ c rest, s.data = c :: rest := by
        cases hsd : s.data with
        | nil => rw [hsd] at hlen; cases hlen
        | cons c rest => exact ⟨c, rest, rfl⟩
      have hone : ∀ ch ∈ s.data, charBytes ch = 1 := fun ch hch =>
        charBytes_of_digit ch (List.all_eq_true.mp hall ch hch)
      have hrl : rustLen s = CARD_NUMBER_LENGTH := by
        show (s.data.map charBytes).sum = CARD_NUMBER_LENGTH
        rw [sum_charBytes_eq_length s.data hone, hlen]
        rfl
      refine (tryFrom_ok_iff s).mpr ⟨hrl, ?_⟩
      have hcd : isDigitChar c = true :=
        List.all_eq_true.mp hall c (by rw [hsd]; exact List.mem_cons_self c rest)
      rw [parseU64_eq s c rest hsd, if_neg (digit_ne_plus c hcd)]
      refine (parseDigits_some_iff (c :: rest)).mpr ⟨by simp, ?_, ?_⟩
      · rw [← hsd]
        exact hall
      · have hb := foldl_digits_lt (c :: rest) 0 (by rw [← hsd]; exact hall)
        have hlc : (c :: rest).length = 15 := by rw [← hsd]; exact hlen
        rw [hlc] at hb
        calc (c :: rest).foldl (fun acc d => 10 * acc + (d.toNat - 48)) 0
            < (0 + 1) * 10 ^ 15 := hb
          _ < 2 ^ 64 := by norm_num
    · obtain ⟨rest, hsd⟩ : ∃ rest, s.data = '+' :: rest := by
        cases hsd : s.data with
        | nil => rw [hsd] at hhead; cases hhead
        | cons c rest =>
          rw [hsd] at hhead
          have hc : c = '+' := by simpa using hhead
          exact ⟨rest, by rw [hc]⟩
      have htail' : rest.all isDigitChar = true := by
        have : s.data.tail = rest := by rw [hsd]; rfl
        rwa [this] at htail
      have hone : ∀ ch ∈ s.data, charBytes ch = 1 := by
        intro ch hch
        rw [hsd] at hch
        rcases List.mem_cons.mp hch with h1 | h2
        · rw [h1]
          decide
        · exact charBytes_of_digit ch (List.all_eq_true.mp htail' ch h2)
      have hrl : rustLen s = CARD_NUMBER_LENGTH := by
        show (s.data.map charBytes).sum = CARD_NUMBER_LENGTH
        rw [sum_charBytes_eq_length s.data hone, hlen]
        rfl
      refine (tryFrom_ok_iff s).mpr ⟨hrl, ?_⟩
      rw [parseU64_eq s '+' rest hsd, if_pos rfl]
      have hrlen : rest.length = 14 := by
        have := hlen
        rw [hsd] at this
        simpa using this
      refine (parseDigits_some_iff rest).mpr ⟨?_, htail', ?_⟩
      · intro he
        rw [he] at hrlen
        cases hrlen
      · have hb := foldl_digits_lt rest 0 htail'
        rw [hrlen] at hb
        calc rest.foldl (fun acc d => 10 * acc + (d.toNat - 48)) 0
            < (0 + 1) * 10 ^ 14 := hb
          _ < 2 ^ 64 := by norm_num

/-- C7 (amended): the conversion of a string into a Card succeeds exactly
when the string is either 15 ASCII decimal digits or a leading plus sign
followed by 14 ASCII decimal digits (the `u64` parser strips an optional
leading `+`; no overflow is possible at this length); on success the card
stores the string unchanged and the derived account identifier is exactly
the first 2 characters — which are digits whenever the string is all
digits. -/
theorem card_validation (s : String) :
    ((∃ c, Card.tryFrom s = .ok c) ↔
      (s.data.length = 15 ∧ s.data.all isDigitChar = true) ∨
      (s.data.length = 15 ∧ s.data.head? = some '+' ∧
        s.data.tail.all isDigitChar = true)) ∧
    (∀ c, Card.tryFrom s = .ok c →
      c.card_number = s ∧ c.account_number = String.mk (s.data.take 2)) ∧
    (s.data.all isDigitChar = true → ∀ c, Card.tryFrom s = .ok c →
      c.account_number.data.length = 2 ∧
      c.account_number.data.all isDigitChar = true) := by
  have hcard : ∀ c, Card.tryFrom s = .ok c → c = Card.mk s := by
    intro c hc
    unfold Card.tryFrom at hc
    by_cases hl : rustLen s ≠ CARD_NUMBER_LENGTH
    · rw [if_pos hl] at hc
      cases hc
    · rw [if_neg hl] at hc
      cases hp : parseU64 s with
      | none => rw [hp] at hc; cases hc
      | some v =>
        rw [hp] at hc
        injection hc with hc
        exact hc.symm
  have hiff := tryFrom_ok_chars_iff s
  refine ⟨hiff, ?_, ?_⟩
  · intro c hc
    rw [hcard c hc]
    exact ⟨rfl, rfl⟩
  · intro hall c hc
    have hlen : s.data.length = 15 := by
      rcases hiff.mp ⟨c, hc⟩ with ⟨hlen, -⟩ | ⟨hlen, hhead, -⟩
      · exact hlen
      · exfalso
        cases hsd : s.data with
        | nil => rw [hsd] at hlen; cases hlen
        | cons d rest =>
          rw [hsd] at hhead
          have hd : d = '+' := by simpa using hhead
          have : isDigitChar d = true :=
            List.all_eq_true.mp hall d (by rw [hsd]; exact List.mem_cons_self d rest)
          rw [hd] at this
          simp [isDigitChar] at this
    rw [hcard c hc]
    constructor
    · show (s.data.take ACCOUNT_ID_LENGTH).length = 2
      rw [List.length_take, hlen]
      rfl
    · show (s.data.take ACCOUNT_ID_LENGTH).all isDigitChar = true
      refine List.all_eq_true.mpr ?_
      intro x hx
      exact List.all_eq_true.mp hall x (List.mem_of_mem_take hx)

/-- Witness for the card-validation theorem: the all-digit 15-character card
number is accepted. -/
theorem card_validation_witness :
    ∃ c, Card.tryFrom "123456789012345" = .ok c :=
  (card_validation "123456789012345").1.mpr (Or.inl ⟨by decide, by decide⟩)

/-- C5 counterexample: a card number that is not 15 numeric digits — a plus
sign followed by 14 ones — is NOT rejected: the request is accepted with a
201, a Payment row carrying that card number is inserted, and place_hold is
invoked, because Rust's `u64` parser accepts the leading `+`. -/
theorem payment_prevalidation_counterexample :
    ¬ ("+11111111111111".data.all isDigitChar = true) ∧
    sagaPlusCard.result
      = .ok (201, ⟨0, 5, "+11111111111111", Status.Approved⟩) ∧
    (⟨0, 5, "+11111111111111", Status.Approved⟩ : Payment)
      ∈ sagaPlusCard.store.payments ∧
    Event.placeHold "+1" 5 true ∈ sagaPlusCard.trace := by
  exact ⟨by decide, rfl, by decide, by decide⟩

/-- C5 (amended): pre-validation of payment creation: amount 0 is rejected
with the 204 no-content class, a negative amount with the 400 bad-request
class, and a card string that is neither exactly 15 numeric digits nor a
plus sign followed by 14 numeric digits (the one further shape the `u64`
parser admits) with the 422 unprocessable-entity class; the three classes
are pairwise distinct, and in all three cases the store is unchanged and
the trace empty — no Payment row is inserted and place_hold is never
invoked. -/
theorem payment_prevalidation (s : Store) (amount : Int) (card : String)
    (w1 : Except String HoldRef) (w2 : Except String Unit) :
    (amount = 0 → paymentsPost s amount card w1 w2
        = ⟨.error (204, "Amount should not be 0"), s, []⟩) ∧
    (amount < 0 → paymentsPost s amount card w1 w2
        = ⟨.error (400, "Amount should not be negative"), s, []⟩) ∧
    (0 < amount →
      ¬ ((card.data.length = 15 ∧ card.data.all isDigitChar = true) ∨
         (card.data.length = 15 ∧ card.data.head? = some '+' ∧
           card.data.tail.all isDigitChar = true)) →
      paymentsPost s amount card w1 w2
        = ⟨.error (422, "Bad Card Number format"), s, []⟩) ∧
    ((204 : Nat) ≠ 400 ∧ (204 : Nat) ≠ 422 ∧ (400 : Nat) ≠ 422) := by
  refine ⟨?_, ?_, ?_, by decide⟩
  · rintro rfl
    exact paymentsPost_eq_zero s card w1 w2
  · intro h
    exact paymentsPost_eq_negative s amount card w1 w2 h
  · intro h0 hbad
    match hc : Card.tryFrom card with
    | .ok c => exact absurd ((tryFrom_ok_chars_iff card).mp ⟨c, hc⟩) hbad
    | .error err => exact paymentsPost_eq_badcard s amount card w1 w2 err h0 hc

/-- Witness for the pre-validation theorem: the zero-amount request against
the empty store. -/
theorem payment_prevalidation_witness :
    paymentsPost emptyStore 0 "123456789012345" (.ok ⟨0⟩) (.ok ())
      = ⟨.error (204, "Amount should not be 0"), emptyStore, []⟩ :=
  (payment_prevalidation emptyStore 0 "123456789012345" (.ok ⟨0⟩) (.ok ())).1 rfl

end BankService
